import Mathlib

/-!
Shallow embedding of the orchestration core of the `gorlock` interactive
download-queue manager (Rust sources under `src/`), together with proofs of
the specification claims about it.

The embedding follows the source files:
  * `src/app_state/mod.rs`    — data model (`AppState`, `DownloadItem`, …)
    and the duration parsing/formatting helpers;
  * `src/app_state/events.rs` — `AppEvent`, `DownloadAction` enums;
  * `src/main.rs`             — `handle_download_action`, `handle_app_event`;
  * `src/ui/events.rs`        — keyboard handlers mutating the state;
  * `src/cache.rs`            — `CacheStore` (TTL-checked probe-result cache).

Ambient effects are made explicit: `Uuid::new_v4()` becomes a fresh-id
counter threaded through `AppState` (`next_id`), `tokio::spawn` becomes a
returned list of `Spawned` descriptors, the task-handle map becomes an
association list of (item id, task token) with a log of aborted tokens, and
the wall clock becomes a `now : Nat` parameter (seconds since the epoch).
Machine integers (`u64`) are modelled as `Nat` with explicit wrapping
(`% 2^64`) where Rust release-mode arithmetic would wrap.
-/

namespace Gorlock

/-- 2^64, the modulus of Rust `u64` arithmetic. -/
def U64MOD : Nat := 18446744073709551616

/-- Wrapping `u64` addition (Rust release-mode `+`). -/
def u64add (a b : Nat) : Nat := (a + b) % U64MOD

/-- Wrapping `u64` multiplication (Rust release-mode `*`). -/
def u64mul (a b : Nat) : Nat := (a * b) % U64MOD

/-- Wrapping `u64` subtraction (Rust release-mode `-`), for operands below
`2^64`. -/
def u64sub (a b : Nat) : Nat := if b ≤ a then a - b else a + U64MOD - b

/-- Value of a list of decimal digit characters. -/
def digitsVal (l : List Char) : Nat := l.foldl (fun a c => a * 10 + (c.toNat - 48)) 0

/-- Rust `str::parse::<u64>()` on a character list: an optional leading `+`,
then one or more ASCII digits, rejecting values that do not fit in 64 bits. -/
def parse_u64_chars (l : List Char) : Option Nat :=
  let cs := match l with
    | '+' :: rest => rest
    | _ => l
  if cs.isEmpty then none
  else if cs.all Char.isDigit then
    let v := digitsVal cs
    if v < U64MOD then some v else none
  else none

/-- Rust `str::parse::<u64>()`. -/
def parse_u64 (s : String) : Option Nat := parse_u64_chars s.toList

/-- Rust `str::split(sep)` on a character list: `[] ↦ [[]]`, every
occurrence of `sep` starts a new (possibly empty) piece. -/
def splitOnChar (sep : Char) : List Char → List (List Char)
  | [] => [[]]
  | c :: rest =>
      let r := splitOnChar sep rest
      if c = sep then [] :: r
      else
        match r with
        | h :: t => (c :: h) :: t
        | [] => [[c]]

/-- `parse_duration_to_seconds` from `src/app_state/mod.rs`: parse `"S"`,
`"M:SS"` or `"H:MM:SS"` to seconds (`u64` arithmetic; the source splits on
`':'` and parses each piece with `str::parse::<u64>`). -/
def parse_duration_to_seconds (duration : String) : Option Nat :=
  match splitOnChar ':' duration.toList with
  | [s] => parse_u64_chars s
  | [m, s] => do
      let minutes ← parse_u64_chars m
      let seconds ← parse_u64_chars s
      some (u64add (u64mul minutes 60) seconds)
  | [h, m, s] => do
      let hours ← parse_u64_chars h
      let minutes ← parse_u64_chars m
      let seconds ← parse_u64_chars s
      some (u64add (u64add (u64mul hours 3600) (u64mul minutes 60)) seconds)
  | _ => none

/-- `format_duration_from_seconds` from `src/app_state/mod.rs`. -/
def format_duration_from_seconds (total_seconds : Nat) : String :=
  let hours := total_seconds / 3600
  let minutes := (total_seconds % 3600) / 60
  let seconds := total_seconds % 60
  if hours > 0 then
    toString hours ++ "h " ++ toString minutes ++ "m " ++ toString seconds ++ "s"
  else if minutes > 0 then
    toString minutes ++ "m " ++ toString seconds ++ "s"
  else
    toString seconds ++ "s"

/-- `DownloadStatus` from `src/app_state/mod.rs`. -/
inductive DownloadStatus where
  | pending
  | fetchingInfo
  | ready
  | downloading
  | paused
  | completed
  | failed
  | cancelled
  deriving DecidableEq, Repr

/-- `DownloadProgress` from `src/app_state/mod.rs`. The `percent` field is an
`f64` in the source; no arithmetic is ever performed on it by the handlers
under study (it is only stored and displayed), so it is carried as a `Nat`
here. -/
structure DownloadProgress where
  percent : Nat
  speed : Option String
  eta : Option String
  downloaded : Option String
  total_size : Option String
  deriving DecidableEq, Repr

/-- `DownloadProgress::default()`. -/
def DownloadProgress.default : DownloadProgress :=
  { percent := 0, speed := none, eta := none, downloaded := none, total_size := none }

/-- `FormatInfo` from `src/app_state/mod.rs` (`fps` is an `f64` in the source,
carried opaquely as a `Nat` since no arithmetic is performed on it). -/
structure FormatInfo where
  format_id : String
  ext : String
  resolution : Option String
  fps : Option Nat
  vcodec : Option String
  acodec : Option String
  filesize : Option Nat
  quality : Option String
  is_audio_only : Bool
  deriving DecidableEq, Repr

/-- `DownloadItem` from `src/app_state/mod.rs`. `Uuid` identities are
modelled as `Nat`; the `created_at : DateTime<Utc>` field is omitted because
no handler or claim reads it. -/
structure DownloadItem where
  id : Nat
  url : String
  title : Option String
  duration : Option String
  format : Option FormatInfo
  status : DownloadStatus
  progress : DownloadProgress
  error : Option String
  deriving DecidableEq, Repr

/-- `DownloadItem::new` (`Uuid::new_v4()` replaced by the explicit fresh id). -/
def DownloadItem.new (id : Nat) (url : String) : DownloadItem :=
  { id := id, url := url, title := none, duration := none, format := none,
    status := .pending, progress := DownloadProgress.default, error := none }

/-- `Panel` from `src/app_state/mod.rs`. -/
inductive Panel where
  | queue
  | details
  | input
  deriving DecidableEq, Repr

/-- `FormatPopup` from `src/app_state/mod.rs`. -/
structure FormatPopup where
  item_id : Nat
  formats : List FormatInfo
  selected_index : Nat
  audio_only_filter : Bool
  deriving DecidableEq, Repr

/-- `PlaylistEntry` from `src/app_state/mod.rs`. -/
structure PlaylistEntry where
  url : String
  title : String
  duration : Option String
  deriving DecidableEq, Repr

/-- `PlaylistPreviewPopup` from `src/app_state/mod.rs`. -/
structure PlaylistPreviewPopup where
  entries : List PlaylistEntry
  selected_index : Nat
  total_duration : Option String
  deriving DecidableEq, Repr

/-- `AppState` from `src/app_state/mod.rs`. The `running_tasks :
HashMap<Uuid, JoinHandle<_>>` becomes an association list of
(item id, task token); `aborted` records the tokens of handles on which
`.abort()` was called, and `next_id` / `next_task` are the explicit supplies
for `Uuid::new_v4()` and for fresh task tokens. -/
structure AppState where
  queue : List DownloadItem
  selected_index : Nat
  current_panel : Panel
  output_dir : String
  url_input : String
  input_mode : Bool
  error_message : Option String
  running_tasks : List (Nat × Nat)
  should_quit : Bool
  format_popup : Option FormatPopup
  is_loading : Bool
  loading_message : Option String
  playlist_preview : Option PlaylistPreviewPopup
  next_id : Nat
  next_task : Nat
  aborted : List Nat
  deriving DecidableEq, Repr

/-- `AppState::default()` (the `output_dir` comes from the ambient download
directory in the source and is irrelevant to every claim). -/
def AppState.initial : AppState :=
  { queue := [], selected_index := 0, current_panel := .input, output_dir := "",
    url_input := "", input_mode := false, error_message := none,
    running_tasks := [], should_quit := false, format_popup := none,
    is_loading := false, loading_message := none, playlist_preview := none,
    next_id := 0, next_task := 0, aborted := [] }

/-- `AppEvent` from `src/app_state/events.rs`. -/
inductive AppEvent where
  | quit
  | progressUpdate (id : Nat) (progress : DownloadProgress)
  | downloadCompleted (id : Nat)
  | downloadFailed (id : Nat) (error : String)
  | formatsFetched (id : Nat) (formats : List FormatInfo) (title : String)
      (duration : Option String)
  | formatsFetchFailed (id : Nat) (error : String)
  | urlValidated (url : String) (is_valid : Bool) (error : Option String)
  | playlistDetected (entries : List (String × String × Option String))
  | singleVideoDetected (url : String) (title : String) (duration : Option String)
  | playlistFetchFailed (error : String)
  deriving DecidableEq, Repr

/-- `DownloadAction` from `src/app_state/events.rs`. -/
inductive DownloadAction where
  | addUrl (url : String)
  | startDownload (id : Nat)
  | pauseDownload (id : Nat)
  | resumeDownload (id : Nat)
  | cancelDownload (id : Nat)
  | removeItem (id : Nat)
  | fetchFormats (id : Nat)
  deriving DecidableEq, Repr

/-- Descriptor of a background task spawned (`tokio::spawn`) by
`handle_download_action` in `src/main.rs`. -/
inductive Spawned where
  | probePlaylist (url : String)
  | download (id : Nat) (url : String) (format_id : String) (output_dir : String)
  | probeFormats (id : Nat) (url : String)
  deriving DecidableEq, Repr

/-- Apply `f` to the first element satisfying `p`, as Rust's
`iter_mut().find(..)` pattern used throughout `src/main.rs`. -/
def updateFirst (p : DownloadItem → Bool) (f : DownloadItem → DownloadItem) :
    List DownloadItem → List DownloadItem
  | [] => []
  | x :: xs => if p x then f x :: xs else x :: updateFirst p f xs

/-- `HashMap::get` on the running-task map. -/
def tasksLookup (id : Nat) (l : List (Nat × Nat)) : Option Nat :=
  (l.find? (fun p => p.1 == id)).map (·.2)

/-- `HashMap::remove` on the running-task map. -/
def tasksRemove (id : Nat) (l : List (Nat × Nat)) : List (Nat × Nat) :=
  l.filter (fun p => p.1 != id)

/-- `HashMap::insert` on the running-task map (replaces any prior binding). -/
def tasksInsert (id tok : Nat) (l : List (Nat × Nat)) : List (Nat × Nat) :=
  (id, tok) :: tasksRemove id l

/-- Fold of `src/main.rs` lines 350-366: accumulate the parseable durations
of the playlist entries into a running `u64` total. -/
def totalSecondsOf (entries : List (String × String × Option String)) : Nat :=
  entries.foldl
    (fun acc e =>
      match e.2.2 with
      | some d =>
          match parse_duration_to_seconds d with
          | some seconds => u64add acc seconds
          | none => acc
      | none => acc)
    0

/-- `handle_app_event` from `src/main.rs` (lines 282-410). -/
def handle_app_event (event : AppEvent) (state : AppState) : AppState :=
  match event with
  | .quit => { state with should_quit := true }
  | .progressUpdate id progress =>
      { state with
        queue := updateFirst (fun item => item.id == id)
          (fun item =>
            let item := { item with progress := progress }
            if item.status ≠ .downloading then { item with status := .downloading }
            else item)
          state.queue }
  | .downloadCompleted id =>
      { state with
        queue := updateFirst (fun item => item.id == id)
          (fun item => { item with status := .completed }) state.queue,
        running_tasks := tasksRemove id state.running_tasks }
  | .downloadFailed id error =>
      { state with
        queue := updateFirst (fun item => item.id == id)
          (fun item => { item with status := .failed, error := some error })
          state.queue,
        running_tasks := tasksRemove id state.running_tasks }
  | .formatsFetched id formats title duration =>
      if state.queue.any (fun item => item.id == id) then
        { state with
          queue := updateFirst (fun item => item.id == id)
            (fun item =>
              { item with title := some title, duration := duration,
                          status := .ready })
            state.queue,
          format_popup := some
            { item_id := id, formats := formats, selected_index := 0,
              audio_only_filter := false } }
      else state
  | .formatsFetchFailed id error =>
      { state with
        queue := updateFirst (fun item => item.id == id)
          (fun item => { item with status := .failed, error := some error })
          state.queue,
        error_message := some error }
  | .urlValidated _ _ error =>
      match error with
      | some e => { state with error_message := some e }
      | none => state
  | .playlistDetected entries =>
      let total_seconds := totalSecondsOf entries
      let playlist_entries := entries.map
        (fun e => PlaylistEntry.mk e.1 e.2.1 e.2.2)
      let total_duration :=
        if total_seconds > 0 then some (format_duration_from_seconds total_seconds)
        else none
      { state with
        is_loading := false, loading_message := none,
        playlist_preview := some
          { entries := playlist_entries, selected_index := 0,
            total_duration := total_duration } }
  | .singleVideoDetected url title duration =>
      let item := DownloadItem.new state.next_id url
      let item := { item with title := some title, duration := duration,
                              status := .fetchingInfo }
      let queue := state.queue ++ [item]
      let queue := updateFirst (fun i => i.id == state.next_id)
        (fun i => { i with status := .ready }) queue
      { state with
        is_loading := false, loading_message := none,
        queue := queue, next_id := state.next_id + 1 }
  | .playlistFetchFailed error =>
      { state with
        is_loading := false, loading_message := none,
        error_message := some error }

/-- `handle_download_action` from `src/main.rs` (lines 138-279); the spawned
background tasks are returned as `Spawned` descriptors. -/
def handle_download_action (action : DownloadAction) (state : AppState) :
    AppState × List Spawned :=
  match action with
  | .addUrl url => (state, [.probePlaylist url])
  | .startDownload id =>
      match state.queue.find? (fun i => i.id == id) with
      | some item =>
          match item.format with
          | some format =>
              let state :=
                { state with
                  queue := updateFirst (fun i => i.id == id)
                    (fun i => { i with status := .downloading }) state.queue }
              ({ state with
                 running_tasks := tasksInsert id state.next_task state.running_tasks,
                 next_task := state.next_task + 1 },
               [.download id item.url format.format_id state.output_dir])
          | none => (state, [])
      | none => (state, [])
  | .cancelDownload id =>
      let state :=
        match tasksLookup id state.running_tasks with
        | some tok =>
            { state with running_tasks := tasksRemove id state.running_tasks,
                         aborted := tok :: state.aborted }
        | none => state
      ({ state with
         queue := updateFirst (fun i => i.id == id)
           (fun i => { i with status := .cancelled }) state.queue }, [])
  | .removeItem id =>
      match tasksLookup id state.running_tasks with
      | some tok =>
          ({ state with running_tasks := tasksRemove id state.running_tasks,
                        aborted := tok :: state.aborted }, [])
      | none => (state, [])
  | .fetchFormats id =>
      match state.queue.find? (fun i => i.id == id) with
      | some item =>
          ({ state with
             queue := updateFirst (fun i => i.id == id)
               (fun i => { i with status := .fetchingInfo }) state.queue },
           [.probeFormats id item.url])
      | none => (state, [])
  | .pauseDownload _ => (state, [])
  | .resumeDownload _ => (state, [])

/-- The event emitted by the background task spawned for `AddUrl`
(`src/main.rs` lines 149-172), as a function of the probe outcome. -/
def addUrlTaskEvent
    (res : Except String (List (String × String × Option String))) :
    Option AppEvent :=
  match res with
  | .ok entries =>
      if entries.length > 1 then some (.playlistDetected entries)
      else
        match entries.head? with
        | some e => some (.singleVideoDetected e.1 e.2.1 e.2.2)
        | none => none
  | .error e => some (.playlistFetchFailed ("Failed to process URL: " ++ e))

/-- The event emitted by the background task spawned for `FetchFormats`
(`src/main.rs` lines 251-268), as a function of the probe outcome. -/
def fetchFormatsTaskEvent (id : Nat)
    (res : Except String (List FormatInfo × String × Option String)) :
    AppEvent :=
  match res with
  | .ok r => .formatsFetched id r.1 r.2.1 r.2.2
  | .error e => .formatsFetchFailed id ("Failed to fetch formats: " ++ e)

/-- Rust `str::trim`: strip leading and trailing whitespace (structural
implementation over the character list so that it evaluates in the
kernel). -/
def rust_trim (s : String) : String :=
  ⟨((s.toList.dropWhile Char.isWhitespace).reverse.dropWhile
      Char.isWhitespace).reverse⟩

/-- The `crossterm::event::KeyCode` values the handlers in
`src/ui/events.rs` discriminate on. -/
inductive Key where
  | up
  | down
  | enter
  | esc
  | tab
  | backspace
  | del
  | char (c : Char)
  | other
  deriving DecidableEq, Repr

/-- A key press: the key code plus whether CONTROL is held
(`crossterm::event::KeyEvent`, restricted to what the handlers read). -/
structure KeyEvent where
  code : Key
  ctrl : Bool
  deriving DecidableEq, Repr

/-- `handle_input_mode` from `src/ui/events.rs` (lines 66-99): URL entry.
Returns the updated state and the actions sent on `action_tx`. -/
def handle_input_mode (key : Key) (state : AppState) :
    AppState × List DownloadAction :=
  match key with
  | .enter =>
      if rust_trim state.url_input ≠ "" then
        let url := rust_trim state.url_input
        ({ state with
           is_loading := true,
           loading_message := some "Fetching video information...",
           url_input := "",
           input_mode := false, current_panel := .queue },
         [.addUrl url])
      else
        ({ state with input_mode := false, current_panel := .queue }, [])
  | .esc => ({ state with input_mode := false, current_panel := .queue }, [])
  | .char c => ({ state with url_input := state.url_input.push c }, [])
  | .backspace => ({ state with url_input := state.url_input.dropRight 1 }, [])
  | .del => ({ state with url_input := "" }, [])
  | _ => (state, [])

/-- `prefetch_formats_for_selected_item` from `src/ui/events.rs`
(lines 291-302): opportunistic `FetchFormats` for a still-`Pending`
selected item (`try_send`, modelled as an emitted action). -/
def prefetch_actions (state : AppState) : List DownloadAction :=
  match state.queue.get? state.selected_index with
  | some item => if item.status == .pending then [.fetchFormats item.id] else []
  | none => []

/-- Move the selection up one row (`Up` / `k` in `handle_navigation_mode`). -/
def nav_up (state : AppState) : AppState × List DownloadAction :=
  if ¬state.queue.isEmpty ∧ state.selected_index > 0 then
    let state := { state with selected_index := state.selected_index - 1 }
    (state, prefetch_actions state)
  else (state, [])

/-- Move the selection down one row (`Down` / `j` in
`handle_navigation_mode`). -/
def nav_down (state : AppState) : AppState × List DownloadAction :=
  if ¬state.queue.isEmpty ∧ state.selected_index < state.queue.length - 1 then
    let state := { state with selected_index := state.selected_index + 1 }
    (state, prefetch_actions state)
  else (state, [])

/-- The `'d'` (delete) branch of `handle_navigation_mode`
(`src/ui/events.rs` lines 148-159): direct index into the queue, local
removal, and clamping of the selection. The source indexes
`state.queue[state.selected_index]` directly; the out-of-bounds case (a
panic in the source) is modelled as the `none` branch and proved
unreachable from the initial state. -/
def nav_delete (state : AppState) : AppState × List DownloadAction :=
  if ¬state.queue.isEmpty then
    match state.queue.get? state.selected_index with
    | some item =>
        let queue := state.queue.eraseIdx state.selected_index
        let sel :=
          if state.selected_index ≥ queue.length ∧ ¬queue.isEmpty then
            queue.length - 1
          else state.selected_index
        ({ state with queue := queue, selected_index := sel },
         [.removeItem item.id])
    | none => (state, [])
  else (state, [])

/-- `handle_navigation_mode` from `src/ui/events.rs` (lines 102-186). -/
def handle_navigation_mode (key : Key) (state : AppState) :
    AppState × List DownloadAction :=
  match key with
  | .up => nav_up state
  | .down => nav_down state
  | .tab =>
      ({ state with
         current_panel :=
           match state.current_panel with
           | .queue => .details
           | .details => .input
           | .input => .queue }, [])
  | .char c =>
      if c = 'q' then ({ state with should_quit := true }, [])
      else if c = 'i' then
        ({ state with input_mode := true, current_panel := .input }, [])
      else if c = 'k' then nav_up state
      else if c = 'j' then nav_down state
      else if c = 'f' then
        match state.queue.get? state.selected_index with
        | some item =>
            if item.status == .pending ∨ item.status == .ready ∨
                item.status == .failed then
              (state, [.fetchFormats item.id])
            else (state, [])
        | none => (state, [])
      else if c = 'd' then nav_delete state
      else if c = 'p' then
        match state.queue.get? state.selected_index with
        | some item =>
            match item.status with
            | .downloading => (state, [.pauseDownload item.id])
            | .paused => (state, [.resumeDownload item.id])
            | _ => (state, [])
        | none => (state, [])
      else if c = 'c' then
        match state.queue.get? state.selected_index with
        | some item =>
            if item.status == .downloading ∨ item.status == .paused then
              (state, [.cancelDownload item.id])
            else (state, [])
        | none => (state, [])
      else (state, [])
  | _ => (state, [])

/-- `handle_format_popup_input` from `src/ui/events.rs` (lines 189-248). -/
def handle_format_popup_input (key : Key) (state : AppState) :
    AppState × List DownloadAction :=
  match state.format_popup with
  | none => (state, [])
  | some popup =>
      let filtered := popup.formats.filter
        (fun format => if popup.audio_only_filter then format.is_audio_only else true)
      match key with
      | .up =>
          if popup.selected_index > 0 then
            let popup := { popup with selected_index := popup.selected_index - 1 }
            ({ state with format_popup := some popup }, [])
          else (state, [])
      | .down =>
          if popup.selected_index < filtered.length - 1 then
            let popup := { popup with selected_index := popup.selected_index + 1 }
            ({ state with format_popup := some popup }, [])
          else (state, [])
      | .enter =>
          match filtered.get? popup.selected_index with
          | some selected_format =>
              let state := { state with format_popup := none }
              let state :=
                { state with
                  queue := updateFirst (fun item => item.id == popup.item_id)
                    (fun item =>
                      { item with format := some selected_format,
                                  status := .ready })
                    state.queue }
              (state, [.startDownload popup.item_id])
          | none => (state, [])
      | .esc => ({ state with format_popup := none }, [])
      | .char c =>
          if c = 'k' then
            if popup.selected_index > 0 then
              let popup := { popup with selected_index := popup.selected_index - 1 }
              ({ state with format_popup := some popup }, [])
            else (state, [])
          else if c = 'j' then
            if popup.selected_index < filtered.length - 1 then
              let popup := { popup with selected_index := popup.selected_index + 1 }
              ({ state with format_popup := some popup }, [])
            else (state, [])
          else if c = 't' then
            let popup := { popup with audio_only_filter := ¬popup.audio_only_filter,
                                      selected_index := 0 }
            ({ state with format_popup := some popup }, [])
          else (state, [])
      | _ => (state, [])

/-- The per-entry push of the playlist-confirm loop (`src/ui/events.rs`
lines 273-279). -/
def pushEntry (state : AppState) (e : PlaylistEntry) : AppState :=
  let item := DownloadItem.new state.next_id e.url
  let item := { item with title := some e.title, duration := e.duration,
                          status := .pending }
  { state with queue := state.queue ++ [item], next_id := state.next_id + 1 }

/-- `handle_playlist_preview_input` from `src/ui/events.rs` (lines 251-288);
the unused `action_tx` argument of the source is dropped. -/
def handle_playlist_preview_input (key : Key) (state : AppState) : AppState :=
  match state.playlist_preview with
  | none => state
  | some preview =>
      match key with
      | .up =>
          if preview.selected_index > 0 then
            let preview := { preview with selected_index := preview.selected_index - 1 }
            { state with playlist_preview := some preview }
          else state
      | .down =>
          if preview.selected_index + 1 < preview.entries.length then
            let preview := { preview with selected_index := preview.selected_index + 1 }
            { state with playlist_preview := some preview }
          else state
      | .enter =>
          let state := { state with playlist_preview := none }
          preview.entries.foldl pushEntry state
      | .esc => { state with playlist_preview := none }
      | .char c =>
          if c = 'k' then
            if preview.selected_index > 0 then
              let preview := { preview with selected_index := preview.selected_index - 1 }
              { state with playlist_preview := some preview }
            else state
          else if c = 'j' then
            if preview.selected_index + 1 < preview.entries.length then
              let preview := { preview with selected_index := preview.selected_index + 1 }
              { state with playlist_preview := some preview }
            else state
          else state
      | _ => state

/-- `handle_key_event` from `src/ui/events.rs` (lines 26-63): the dispatch
over Ctrl-C, error dismissal, the two popups, input mode and navigation. -/
def handle_key_event (key : KeyEvent) (state : AppState) :
    AppState × List DownloadAction :=
  if key.ctrl ∧ key.code = .char 'c' then
    ({ state with should_quit := true }, [])
  else if state.error_message.isSome then
    ({ state with error_message := none }, [])
  else if state.format_popup.isSome then
    handle_format_popup_input key.code state
  else if state.playlist_preview.isSome then
    (handle_playlist_preview_input key.code state, [])
  else if state.input_mode then
    handle_input_mode key.code state
  else
    handle_navigation_mode key.code state

/-- One interleaving step of the orchestrator loop in `src/main.rs`: a key
press, an application event from the event bus, or a download action. -/
inductive Step where
  | key (k : KeyEvent)
  | app (e : AppEvent)
  | act (a : DownloadAction)
  deriving DecidableEq, Repr

/-- Apply one step to the state (the emitted actions and spawned-task
descriptors are dropped: they do not mutate the state). -/
def applyStep (st : Step) (state : AppState) : AppState :=
  match st with
  | .key k => (handle_key_event k state).1
  | .app e => handle_app_event e state
  | .act a => (handle_download_action a state).1

/-- Apply a sequence of steps, oldest first. -/
def applySteps (l : List Step) (state : AppState) : AppState :=
  l.foldl (fun s st => applyStep st s) state

/-- `CachedEntry` from `src/cache.rs` (`timestamp` is seconds since the Unix
epoch). -/
structure CachedEntry where
  url : String
  title : String
  duration : Option String
  formats : Option (List FormatInfo)
  playlist_entries : Option (List (String × String × Option String))
  timestamp : Nat
  deriving DecidableEq, Repr

/-- The in-memory map of `CacheStore` from `src/cache.rs`
(`HashMap<String, CachedEntry>` as an association list; the on-disk
persistence is a best-effort side channel that never feeds back into reads
within a process). -/
def CacheStore := List (String × CachedEntry)

/-- `CacheStore::get` from `src/cache.rs` (lines 51-65): return the entry
for `url` if its age is below the 24-hour TTL, else nothing; `now` is the
injected clock (`SystemTime::now` in seconds since the epoch). -/
def CacheStore.get (store : CacheStore) (now : Nat) (url : String) :
    Option CachedEntry :=
  match store.find? (fun p => p.1 == url) with
  | some p => if u64sub now p.2.timestamp < 24 * 3600 then some p.2 else none
  | none => none

/-- `CacheStore::set` from `src/cache.rs` (lines 67-85): insert or overwrite
the binding for `url` (the asynchronous best-effort disk write has no effect
on the in-memory map). -/
def CacheStore.set (store : CacheStore) (url : String) (entry : CachedEntry) :
    CacheStore :=
  (url, entry) :: store.filter (fun p => p.1 != url)

/-- The raw lookup of the backing map, with no TTL check: used to state
that expiry is lazy (an expired entry stays in the map; only `get` hides
it). -/
def CacheStore.rawLookup (store : CacheStore) (url : String) :
    Option CachedEntry :=
  (store.find? (fun p => p.1 == url)).map (·.2)

/-- Modelled from the spec: the Fetch Formats handling the specification
describes, which the source does not implement — "look up Result Cache
first; on miss, acquire a Limiter slot and invoke the Probe Client". This
definition returns the probe invocations such a handler would spawn for an
item, so that it can be compared with the probes actually spawned by
`handle_download_action` (which consults no cache). -/
def fetch_formats_probes_spec (cache : CacheStore) (now : Nat) (id : Nat)
    (url : String) : List Spawned :=
  match CacheStore.get cache now url with
  | some _ => []
  | none => [.probeFormats id url]

/-! ### Helper lemmas -/

theorem updateFirst_length (p : DownloadItem → Bool) (f : DownloadItem → DownloadItem) :
    ∀ l : List DownloadItem, (updateFirst p f l).length = l.length := by
  intro l
  induction l with
  | nil => rfl
  | cons x xs ih =>
      simp only [updateFirst]
      split <;> simp [ih]

theorem updateFirst_append_not (p : DownloadItem → Bool) (f : DownloadItem → DownloadItem)
    {pre rest : List DownloadItem} (h : ∀ x ∈ pre, p x = false) :
    updateFirst p f (pre ++ rest) = pre ++ updateFirst p f rest := by
  induction pre with
  | nil => rfl
  | cons x xs ih =>
      have hx : p x = false := h x (by simp)
      simp only [List.cons_append, updateFirst, hx]
      simp only [Bool.false_eq_true, if_false, List.cons.injEq, true_and]
      exact ih (fun y hy => h y (by simp [hy]))

theorem updateFirst_cons_pos {p : DownloadItem → Bool} {f : DownloadItem → DownloadItem}
    {x : DownloadItem} {xs : List DownloadItem} (h : p x = true) :
    updateFirst p f (x :: xs) = f x :: xs := by
  simp [updateFirst, h]

theorem updateFirst_of_forall_not {p : DownloadItem → Bool} {f : DownloadItem → DownloadItem}
    {l : List DownloadItem} (h : ∀ x ∈ l, p x = false) :
    updateFirst p f l = l := by
  induction l with
  | nil => rfl
  | cons x xs ih =>
      have hx : p x = false := h x (by simp)
      simp only [updateFirst, hx, Bool.false_eq_true, if_false, List.cons.injEq, true_and]
      exact ih (fun y hy => h y (by simp [hy]))

theorem find?_append_not {α : Type} (p : α → Bool) {pre rest : List α}
    (h : ∀ x ∈ pre, p x = false) :
    (pre ++ rest).find? p = rest.find? p := by
  induction pre with
  | nil => rfl
  | cons x xs ih =>
      have hx : p x = false := h x (by simp)
      simp only [List.cons_append, List.find?, hx]
      exact ih (fun y hy => h y (by simp [hy]))

theorem queue_decomp_find? {pre post : List DownloadItem} {item : DownloadItem} {id : Nat}
    (hid : item.id = id) (hpre : ∀ x ∈ pre, x.id ≠ id) :
    (pre ++ item :: post).find? (fun i => i.id == id) = some item := by
  rw [find?_append_not]
  · simp [List.find?, hid]
  · intro x hx
    simp [hpre x hx]

theorem queue_decomp_updateFirst {pre post : List DownloadItem} {item : DownloadItem}
    {id : Nat} (f : DownloadItem → DownloadItem)
    (hid : item.id = id) (hpre : ∀ x ∈ pre, x.id ≠ id) :
    updateFirst (fun i => i.id == id) f (pre ++ item :: post) = pre ++ f item :: post := by
  rw [updateFirst_append_not]
  · rw [updateFirst_cons_pos (by simp [hid])]
  · intro x hx
    simp [hpre x hx]

theorem queue_decomp_any {pre post : List DownloadItem} {item : DownloadItem} {id : Nat}
    (hid : item.id = id) :
    (pre ++ item :: post).any (fun i => i.id == id) = true := by
  simp only [List.any_append, List.any_cons]
  simp [hid]

/-- The parseable per-entry durations, in order (spec-side description of
the aggregate). -/
def parsed_durations (entries : List (String × String × Option String)) : List Nat :=
  entries.filterMap (fun e => e.2.2.bind parse_duration_to_seconds)

theorem totalSecondsOf_go (entries : List (String × String × Option String)) :
    ∀ acc : Nat, acc + (parsed_durations entries).sum < U64MOD →
      entries.foldl
        (fun acc e =>
          match e.2.2 with
          | some d =>
              match parse_duration_to_seconds d with
              | some seconds => u64add acc seconds
              | none => acc
          | none => acc)
        acc = acc + (parsed_durations entries).sum := by
  induction entries with
  | nil => intro acc _; simp [parsed_durations]
  | cons e es ih =>
      intro acc hbound
      match hdur : e.2.2 with
      | none =>
          simp only [List.foldl_cons, hdur]
          have : parsed_durations (e :: es) = parsed_durations es := by
            simp [parsed_durations, hdur]
          rw [this] at hbound ⊢
          exact ih acc hbound
      | some d =>
          match hparse : parse_duration_to_seconds d with
          | none =>
              simp only [List.foldl_cons, hdur, hparse]
              have : parsed_durations (e :: es) = parsed_durations es := by
                simp [parsed_durations, hdur, hparse]
              rw [this] at hbound ⊢
              exact ih acc hbound
          | some sec =>
              simp only [List.foldl_cons, hdur, hparse]
              have hsum : parsed_durations (e :: es) = sec :: parsed_durations es := by
                simp [parsed_durations, hdur, hparse]
              rw [hsum] at hbound ⊢
              simp only [List.sum_cons] at hbound ⊢
              have hadd : u64add acc sec = acc + sec := by
                have : acc + sec < U64MOD := by omega
                simp [u64add, Nat.mod_eq_of_lt this]
              rw [hadd]
              have := ih (acc + sec) (by omega)
              rw [this]
              omega

theorem totalSecondsOf_eq_sum {entries : List (String × String × Option String)}
    (h : (parsed_durations entries).sum < U64MOD) :
    totalSecondsOf entries = (parsed_durations entries).sum := by
  have := totalSecondsOf_go entries 0 (by omega)
  simpa [totalSecondsOf] using this

/-! ### Claim C5 -/

/-- C5: applying a `ProgressUpdate` event for an item present in the queue
replaces the item's progress snapshot with the event's snapshot and forces
the status to `Downloading` when it is not already `Downloading` (so the
resulting status is always `Downloading`, e.g. from `Ready`); an event whose
identity matches no queued item changes nothing. -/
theorem progress_update_replaces_and_forces_downloading
    (s : AppState) (id : Nat) (p : DownloadProgress) :
    (∀ pre item post, s.queue = pre ++ item :: post → item.id = id →
      (∀ x ∈ pre, x.id ≠ id) →
      (handle_app_event (.progressUpdate id p) s).queue
        = pre ++ { item with progress := p, status := .downloading } :: post)
    ∧ ((∀ x ∈ s.queue, x.id ≠ id) → handle_app_event (.progressUpdate id p) s = s) := by
  constructor
  · intro pre item post hq hid hpre
    simp only [handle_app_event, hq]
    rw [queue_decomp_updateFirst _ hid hpre]
    by_cases h : item.status = DownloadStatus.downloading
    · cases item
      simp_all
    · simp [h]
  · intro habs
    simp only [handle_app_event]
    rw [updateFirst_of_forall_not (fun x hx => by simp [habs x hx])]

/-- Witness for C5: a `Ready` item receives a progress event and is forced
to `Downloading` with the new snapshot; an event for an unknown identity is
a no-op. -/
theorem progress_update_replaces_and_forces_downloading_witness :
    ((let item := { DownloadItem.new 0 "u" with status := DownloadStatus.ready }
      let s : AppState := { AppState.initial with queue := [item] }
      let p : DownloadProgress :=
        { percent := 42, speed := some "1MiB/s", eta := none, downloaded := none,
          total_size := none }
      (handle_app_event (.progressUpdate 0 p) s).queue
        = [{ item with progress := p, status := .downloading }])
     ∧ (let s2 : AppState := { AppState.initial with queue := [DownloadItem.new 5 "v"] }
        handle_app_event (.progressUpdate 0 DownloadProgress.default) s2 = s2)) := by
  refine ⟨?_, ?_⟩
  · exact (progress_update_replaces_and_forces_downloading _ 0 _).1 [] _ []
      rfl rfl (by intro x hx; simp at hx)
  · exact (progress_update_replaces_and_forces_downloading _ 0 _).2
      (by intro x hx; simp at hx; simp [hx, DownloadItem.new])

/-! ### Claim C8 -/

/-- C8: a `DownloadFailed` or `FormatsFetchFailed` event for an item still
in the queue turns the item `Failed` and attaches the event's error
message; `FormatsFetchFailed` additionally surfaces the message; when the
referenced item has been removed both handlers leave the queue unchanged
(the control loop is a total function — no panic). -/
theorem failure_events_become_item_state
    (s : AppState) (id : Nat) (err : String) :
    (∀ pre item post, s.queue = pre ++ item :: post → item.id = id →
      (∀ x ∈ pre, x.id ≠ id) →
      (handle_app_event (.downloadFailed id err) s).queue
        = pre ++ { item with status := .failed, error := some err } :: post
      ∧ (handle_app_event (.formatsFetchFailed id err) s).queue
        = pre ++ { item with status := .failed, error := some err } :: post
      ∧ (handle_app_event (.formatsFetchFailed id err) s).error_message = some err)
    ∧ ((∀ x ∈ s.queue, x.id ≠ id) →
      (handle_app_event (.downloadFailed id err) s).queue = s.queue
      ∧ (handle_app_event (.formatsFetchFailed id err) s).queue = s.queue) := by
  constructor
  · intro pre item post hq hid hpre
    refine ⟨?_, ?_, rfl⟩ <;>
      · simp only [handle_app_event, hq]
        rw [queue_decomp_updateFirst _ hid hpre]
  · intro habs
    constructor <;>
      · simp only [handle_app_event]
        rw [updateFirst_of_forall_not (fun x hx => by simp [habs x hx])]

/-- Witness for C8: a failing download marks the single queued item
`Failed` with the message attached, and a failure event for an
already-removed identity leaves the (empty) queue untouched. -/
theorem failure_events_become_item_state_witness :
    ((let item := { DownloadItem.new 3 "u" with status := DownloadStatus.downloading }
      let s : AppState := { AppState.initial with queue := [item] }
      (handle_app_event (.downloadFailed 3 "Download failed: boom") s).queue
        = [{ item with status := .failed, error := some "Download failed: boom" }]
      ∧ (handle_app_event (.formatsFetchFailed 3 "Download failed: boom") s).queue
        = [{ item with status := .failed, error := some "Download failed: boom" }]
      ∧ (handle_app_event (.formatsFetchFailed 3 "Download failed: boom") s).error_message
        = some "Download failed: boom")
     ∧ ((handle_app_event (.downloadFailed 3 "gone") AppState.initial).queue = [])) := by
  constructor
  · exact (failure_events_become_item_state _ 3 _).1 [] _ [] rfl rfl
      (by intro x hx; simp at hx)
  · exact ((failure_events_become_item_state AppState.initial 3 "gone").2
      (by intro x hx; simp [AppState.initial] at hx)).1

/-! ### Claim C6 -/

/-- C6: after `set url entry`, `get url` returns the stored entry exactly
while the elapsed time since the entry's capture timestamp is below the
24-hour TTL and nothing once the TTL has elapsed; the entry itself stays in
the backing map either way — expiry is a lazy check performed by `get`, not
an eviction. -/
theorem cache_set_get_ttl
    (store : CacheStore) (url : String) (e : CachedEntry) (now : Nat)
    (hclock : e.timestamp ≤ now) :
    (CacheStore.get (CacheStore.set store url e) now url
      = if now - e.timestamp < 24 * 3600 then some e else none)
    ∧ CacheStore.rawLookup (CacheStore.set store url e) url = some e := by
  have hfind : (CacheStore.set store url e).find? (fun p => p.1 == url) = some (url, e) := by
    simp [CacheStore.set, List.find?]
  constructor
  · simp only [CacheStore.get, hfind]
    have hsub : u64sub now e.timestamp = now - e.timestamp := by
      simp [u64sub, hclock]
    rw [hsub]
  · simp [CacheStore.rawLookup, hfind]

/-- Witness for C6: with capture timestamp 1000, a read at 1500 (within the
TTL) returns the stored entry, a read at 1000 + 24·3600 returns nothing,
and the expired entry is still present in the backing map. -/
theorem cache_set_get_ttl_witness :
    (let e : CachedEntry := { url := "u", title := "t", duration := some "1:02",
                              formats := none, playlist_entries := none,
                              timestamp := 1000 }
     (1000 ≤ 1500
       ∧ CacheStore.get (CacheStore.set [] "u" e) 1500 "u"
           = if 1500 - 1000 < 24 * 3600 then some e else none)
     ∧ (1000 ≤ 1000 + 24 * 3600
       ∧ CacheStore.get (CacheStore.set [] "u" e) (1000 + 24 * 3600) "u"
           = (if 1000 + 24 * 3600 - 1000 < 24 * 3600 then some e else none)
       ∧ CacheStore.rawLookup (CacheStore.set [] "u" e) "u" = some e)) := by
  refine ⟨⟨by decide, ?_⟩, by decide, ?_, ?_⟩
  · exact (cache_set_get_ttl [] "u" _ 1500 (by decide)).1
  · exact (cache_set_get_ttl [] "u" _ (1000 + 24 * 3600) (by decide)).1
  · exact (cache_set_get_ttl [] "u" _ (1000 + 24 * 3600) (by decide)).2

/-! ### Claim C9 -/

/-- C9: when the probe spawned for `AddUrl` succeeds with an empty entry
list, no event at all is emitted (the handler only sends for more than one
entry or for a present first entry), and the `AddUrl` action itself leaves
the state — queue and loading flag included — untouched, so the loading
flag set on submission is never cleared by that action; submission of a
non-blank URL does set the loading flag. -/
theorem addurl_empty_probe_is_silent (s : AppState) (url : String)
    (hurl : rust_trim s.url_input ≠ "") :
    addUrlTaskEvent (.ok []) = none
    ∧ (handle_download_action (.addUrl url) s).1 = s
    ∧ (handle_input_mode .enter s).1.is_loading = true
    ∧ (handle_input_mode .enter s).2 = [.addUrl (rust_trim s.url_input)] := by
  refine ⟨rfl, rfl, ?_, ?_⟩ <;> simp [handle_input_mode, hurl]

/-- Witness for C9: submitting the literal URL `"u"` sets the loading flag
and emits `AddUrl`; the empty-probe outcome then emits nothing and the
action leaves the state unchanged. -/
theorem addurl_empty_probe_is_silent_witness :
    (let s : AppState := { AppState.initial with url_input := "u", input_mode := true }
     rust_trim s.url_input ≠ ""
     ∧ (addUrlTaskEvent (.ok []) = none
        ∧ (handle_download_action (.addUrl "u") s).1 = s
        ∧ (handle_input_mode .enter s).1.is_loading = true
        ∧ (handle_input_mode .enter s).2 = [.addUrl (rust_trim s.url_input)])) := by
  exact ⟨by decide, addurl_empty_probe_is_silent _ "u" (by decide)⟩

/-! ### Claim C4 -/

/-- C4: for every `PlaylistDetected` event the confirmation popup carries
the listed entries and an aggregate duration equal to the sum in seconds of
all parseable per-entry durations (unparseable or absent durations
contribute nothing), formatted by `format_duration_from_seconds`; when the
sum is zero — in particular when no entry has a parseable duration — no
aggregate is shown. The hypothesis keeps the sum inside the `u64` range in
which the source accumulates it. -/
theorem playlist_aggregate_duration
    (s : AppState) (entries : List (String × String × Option String))
    (hbound : (parsed_durations entries).sum < U64MOD) :
    (handle_app_event (.playlistDetected entries) s).playlist_preview
      = some
        { entries := entries.map (fun e => PlaylistEntry.mk e.1 e.2.1 e.2.2),
          selected_index := 0,
          total_duration :=
            if (parsed_durations entries).sum > 0
            then some (format_duration_from_seconds ((parsed_durations entries).sum))
            else none }
    ∧ ((∀ e ∈ entries, (e.2.2.bind parse_duration_to_seconds) = none) →
      (handle_app_event (.playlistDetected entries) s).playlist_preview
        = some
          { entries := entries.map (fun e => PlaylistEntry.mk e.1 e.2.1 e.2.2),
            selected_index := 0, total_duration := none }) := by
  have htot := totalSecondsOf_eq_sum hbound
  constructor
  · simp only [handle_app_event, htot]
  · intro hnone
    have hparsed : parsed_durations entries = [] := by
      simp only [parsed_durations, List.filterMap_eq_nil_iff]
      intro e he
      exact hnone e he
    simp only [handle_app_event, htot, hparsed]
    simp

/-- Witness for C4: entries with durations `"1:02"`, `"0:58"` and one with
no duration aggregate to `"2m 0s"`; a collection whose only duration is the
unparseable `"abc"` shows no aggregate. -/
theorem playlist_aggregate_duration_witness :
    (let entries : List (String × String × Option String) :=
       [("u1", "t1", some "1:02"), ("u2", "t2", some "0:58"), ("u3", "t3", none)]
     (parsed_durations entries).sum < U64MOD
     ∧ (handle_app_event (.playlistDetected entries) AppState.initial).playlist_preview
         = some
           { entries := entries.map (fun e => PlaylistEntry.mk e.1 e.2.1 e.2.2),
             selected_index := 0,
             total_duration :=
               if (parsed_durations entries).sum > 0
               then some (format_duration_from_seconds ((parsed_durations entries).sum))
               else none }
     ∧ format_duration_from_seconds ((parsed_durations entries).sum) = "2m 0s")
    ∧ (let bad : List (String × String × Option String) := [("u", "t", some "abc")]
       ((parsed_durations bad).sum < U64MOD
        ∧ (∀ e ∈ bad, (e.2.2.bind parse_duration_to_seconds) = none))
       ∧ (handle_app_event (.playlistDetected bad) AppState.initial).playlist_preview
           = some
             { entries := bad.map (fun e => PlaylistEntry.mk e.1 e.2.1 e.2.2),
               selected_index := 0, total_duration := none }) := by
  refine ⟨⟨by decide, ?_, by decide⟩, ⟨by decide, by decide⟩, ?_⟩
  · exact (playlist_aggregate_duration AppState.initial _ (by decide)).1
  · exact (playlist_aggregate_duration AppState.initial _ (by decide)).2 (by decide)

/-! ### Claim C1 -/

/-- A concrete state for the C1 counterexample: one `Downloading` item with
identity `0` whose task handle (token `7`) is registered. -/
def c1State : AppState :=
  { AppState.initial with
    queue := [{ DownloadItem.new 0 "u" with status := .downloading }],
    running_tasks := [(0, 7)] }

/-- Counterexample to C1 as stated: after `CancelDownload` the item is
indeed `Cancelled` with its handle removed, but a subsequent
`ProgressUpdate` for the same identity is NOT a no-op — it flips the status
back to `Downloading` (the handler at `src/main.rs` lines 287-293 forces
`Downloading` unconditionally, with no guard on `Cancelled`). -/
theorem cancel_then_progress_not_noop_counterexample :
    (let s1 := (handle_download_action (.cancelDownload 0) c1State).1
     let p : DownloadProgress :=
       { percent := 50, speed := none, eta := none, downloaded := none,
         total_size := none }
     let s2 := handle_app_event (.progressUpdate 0 p) s1
     (s1.queue.map (fun i => i.status) = [.cancelled]
       ∧ tasksLookup 0 s1.running_tasks = none)
     ∧ s2.queue.map (fun i => i.status) = [.downloading]
     ∧ ¬ s2.queue.map (fun i => i.status) = [.cancelled]) := by
  refine ⟨⟨by decide, by decide⟩, by decide, by decide⟩

/-- C1 amended: cancelling a `Downloading` item transitions it to
`Cancelled` and removes (and aborts) its task handle; but a `ProgressUpdate`
event applied afterwards for that identity, while the item is still queued,
is not a no-op: it replaces the progress snapshot and forces the status back
to `Downloading`. -/
theorem cancel_sets_cancelled_but_progress_reverts
    (s : AppState) (id tok : Nat) (p : DownloadProgress)
    (pre post : List DownloadItem) (item : DownloadItem)
    (hq : s.queue = pre ++ item :: post) (hid : item.id = id)
    (hpre : ∀ x ∈ pre, x.id ≠ id) (_hst : item.status = .downloading)
    (htask : tasksLookup id s.running_tasks = some tok) :
    (handle_download_action (.cancelDownload id) s).1.queue
      = pre ++ { item with status := .cancelled } :: post
    ∧ tasksLookup id (handle_download_action (.cancelDownload id) s).1.running_tasks
      = none
    ∧ tok ∈ (handle_download_action (.cancelDownload id) s).1.aborted
    ∧ (handle_app_event (.progressUpdate id p)
        (handle_download_action (.cancelDownload id) s).1).queue
      = pre ++ { item with progress := p, status := .downloading } :: post := by
  have hremove : tasksLookup id (tasksRemove id s.running_tasks) = none := by
    have hfind : List.find? (fun q => q.1 == id)
        (List.filter (fun q => q.1 != id) s.running_tasks) = none := by
      rw [List.find?_eq_none]
      intro x hx
      have hmem := List.mem_filter.mp hx
      simpa using hmem.2
    simp [tasksLookup, tasksRemove, hfind]
  have hq1 : (handle_download_action (.cancelDownload id) s).1.queue
      = pre ++ { item with status := .cancelled } :: post := by
    simp only [handle_download_action, htask, hq]
    rw [queue_decomp_updateFirst _ hid hpre]
  refine ⟨hq1, ?_, ?_, ?_⟩
  · simp only [handle_download_action, htask]
    exact hremove
  · simp [handle_download_action, htask]
  · simp only [handle_app_event, hq1]
    rw [queue_decomp_updateFirst _
      (show ({ item with status := DownloadStatus.cancelled } : DownloadItem).id = id
        from hid) hpre]
    simp

/-- Witness for C1 (amended): the concrete cancelled item with a stray
progress event ends up `Downloading` with the new snapshot. -/
theorem cancel_sets_cancelled_but_progress_reverts_witness :
    (let item : DownloadItem := { DownloadItem.new 0 "u" with status := .downloading }
     let p : DownloadProgress :=
       { percent := 50, speed := none, eta := none, downloaded := none,
         total_size := none }
     (c1State.queue = [] ++ item :: [] ∧ item.id = 0
       ∧ item.status = DownloadStatus.downloading
       ∧ tasksLookup 0 c1State.running_tasks = some 7)
     ∧ ((handle_download_action (.cancelDownload 0) c1State).1.queue
          = [] ++ { item with status := .cancelled } :: []
        ∧ tasksLookup 0
            (handle_download_action (.cancelDownload 0) c1State).1.running_tasks = none
        ∧ 7 ∈ (handle_download_action (.cancelDownload 0) c1State).1.aborted
        ∧ (handle_app_event (.progressUpdate 0 p)
            (handle_download_action (.cancelDownload 0) c1State).1).queue
          = [] ++ { item with progress := p, status := .downloading } :: [])) := by
  refine ⟨⟨by decide, by decide, by decide, by decide⟩, ?_⟩
  exact cancel_sets_cancelled_but_progress_reverts c1State 0 7 _ [] [] _
    (by decide) (by decide) (by intro x hx; simp at hx) (by decide) (by decide)

/-! ### Claim C2 -/

/-- A live cache entry for the URL `"u"` (captured at time 0). -/
def c2Entry : CachedEntry :=
  { url := "u", title := "t", duration := some "1:02",
    formats := some [], playlist_entries := none, timestamp := 0 }

/-- Counterexample to C2 as stated: even with a live Result-Cache entry for
the item's URL, handling `FetchFormats` spawns a probe — the handler
(`src/main.rs` lines 245-269) consults no cache and acquires no limiter
slot (`CacheStore` in `src/cache.rs` and the semaphore-guarded
`ParallelPlaylistProcessor` are never referenced from the orchestrator; the
`cache` and `parallel_processor` modules are not even declared in the crate
module tree), whereas the cache-first handling the claim describes would
spawn none. -/
theorem fetch_formats_ignores_cache_counterexample :
    (CacheStore.get [("u", c2Entry)] 10 "u" = some c2Entry
      ∧ (handle_download_action (.fetchFormats 0) c1State).2
          = [.probeFormats 0 "u"]
      ∧ fetch_formats_probes_spec [("u", c2Entry)] 10 0 "u" = [])
    ∧ (handle_download_action (.fetchFormats 0) c1State).2
        ≠ fetch_formats_probes_spec [("u", c2Entry)] 10 0 "u" := by
  refine ⟨⟨by decide, by decide, by decide⟩, by decide⟩

/-- C2 amended: when the orchestrator handles `FetchFormats` for a queued
item it consults no cache and no limiter: it unconditionally marks the item
`FetchingInfo` and spawns a probe for the item's URL; the probe task's
success event populates the item's title and duration, sets it `Ready` and
opens the format-selection popup for it, and its failure event transitions
the item to `Failed` with the error message attached. -/
theorem fetch_formats_probes_unconditionally
    (s : AppState) (id : Nat) (pre post : List DownloadItem) (item : DownloadItem)
    (formats : List FormatInfo) (title : String) (duration : Option String)
    (err : String)
    (hq : s.queue = pre ++ item :: post) (hid : item.id = id)
    (hpre : ∀ x ∈ pre, x.id ≠ id) :
    ((handle_download_action (.fetchFormats id) s).1.queue
       = pre ++ { item with status := .fetchingInfo } :: post
     ∧ (handle_download_action (.fetchFormats id) s).2 = [.probeFormats id item.url])
    ∧ (fetchFormatsTaskEvent id (.ok (formats, title, duration))
         = .formatsFetched id formats title duration
       ∧ (handle_app_event (.formatsFetched id formats title duration) s).queue
           = pre ++ { item with title := some title, duration := duration,
                                status := .ready } :: post
       ∧ (handle_app_event (.formatsFetched id formats title duration) s).format_popup
           = some { item_id := id, formats := formats, selected_index := 0,
                    audio_only_filter := false })
    ∧ (fetchFormatsTaskEvent id (.error err)
         = .formatsFetchFailed id ("Failed to fetch formats: " ++ err)
       ∧ (handle_app_event
            (.formatsFetchFailed id ("Failed to fetch formats: " ++ err)) s).queue
           = pre ++ { item with status := .failed,
                                error := some ("Failed to fetch formats: " ++ err) }
               :: post) := by
  have hfind : List.find? (fun i => i.id == id) (pre ++ item :: post) = some item :=
    queue_decomp_find? hid hpre
  have hany : ((pre ++ item :: post).any fun i => i.id == id) = true :=
    queue_decomp_any hid
  refine ⟨⟨?_, ?_⟩, ⟨rfl, ?_, ?_⟩, rfl, ?_⟩
  · simp only [handle_download_action, hq, hfind]
    rw [queue_decomp_updateFirst _ hid hpre]
  · simp [handle_download_action, hq, hfind]
  · simp only [handle_app_event, hq, hany, if_true]
    rw [queue_decomp_updateFirst _ hid hpre]
  · simp [handle_app_event, hq, hany]
  · simp only [handle_app_event, hq]
    rw [queue_decomp_updateFirst _ hid hpre]

/-- Witness for C2 (amended): the concrete single-item queue goes to
`FetchingInfo` with a probe spawned; a success event opens the popup and a
failure event marks the item `Failed`. -/
theorem fetch_formats_probes_unconditionally_witness :
    (let item : DownloadItem := { DownloadItem.new 0 "u" with status := .downloading }
     (c1State.queue = [] ++ item :: [] ∧ item.id = 0)
     ∧ (((handle_download_action (.fetchFormats 0) c1State).1.queue
           = [] ++ { item with status := .fetchingInfo } :: []
         ∧ (handle_download_action (.fetchFormats 0) c1State).2
             = [.probeFormats 0 item.url])
        ∧ (fetchFormatsTaskEvent 0 (.ok ([], "T", some "0:58"))
             = .formatsFetched 0 [] "T" (some "0:58")
           ∧ (handle_app_event (.formatsFetched 0 [] "T" (some "0:58")) c1State).queue
               = [] ++ { item with title := some "T", duration := some "0:58",
                                   status := .ready } :: []
           ∧ (handle_app_event
                (.formatsFetched 0 [] "T" (some "0:58")) c1State).format_popup
               = some { item_id := 0, formats := [], selected_index := 0,
                        audio_only_filter := false })
        ∧ (fetchFormatsTaskEvent 0 (.error "boom")
             = .formatsFetchFailed 0 ("Failed to fetch formats: " ++ "boom")
           ∧ (handle_app_event
                (.formatsFetchFailed 0 ("Failed to fetch formats: " ++ "boom"))
                c1State).queue
               = [] ++ { item with status := .failed,
                                   error := some ("Failed to fetch formats: " ++ "boom") }
                   :: []))) := by
  refine ⟨⟨by decide, by decide⟩, ?_⟩
  exact fetch_formats_probes_unconditionally c1State 0 [] [] _ [] "T" (some "0:58")
    "boom" (by decide) (by decide) (by intro x hx; simp at hx)

/-! ### Claim C3 -/

/-- The queue items the playlist-confirm loop appends for the listed
entries, with identities drawn in order from the fresh-id supply `n`. -/
def entriesToItems (n : Nat) : List PlaylistEntry → List DownloadItem
  | [] => []
  | e :: es =>
      { DownloadItem.new n e.url with title := some e.title,
                                      duration := e.duration,
                                      status := .pending }
        :: entriesToItems (n + 1) es

theorem entriesToItems_map (n : Nat) (es : List PlaylistEntry) :
    (entriesToItems n es).map (fun i => (i.url, i.title, i.duration, i.status))
      = es.map (fun e => (e.url, some e.title, e.duration, DownloadStatus.pending)) := by
  induction es generalizing n with
  | nil => rfl
  | cons e es ih => simp [entriesToItems, DownloadItem.new, ih]

theorem entriesToItems_length (n : Nat) (es : List PlaylistEntry) :
    (entriesToItems n es).length = es.length := by
  induction es generalizing n with
  | nil => rfl
  | cons e es ih => simp [entriesToItems, ih]

theorem foldl_pushEntry (es : List PlaylistEntry) (s : AppState) :
    es.foldl pushEntry s
      = { s with queue := s.queue ++ entriesToItems s.next_id es,
                 next_id := s.next_id + es.length } := by
  induction es generalizing s with
  | nil => simp [entriesToItems]
  | cons e es ih =>
      simp only [List.foldl_cons]
      rw [ih]
      simp only [pushEntry, entriesToItems]
      simp [List.append_assoc]
      omega

/-- C3: a probe outcome with more than one listing entry is surfaced as a
pending confirmation (a `PlaylistDetected` event that fills the preview
popup with exactly those entries, in order, and leaves the queue untouched);
pressing Enter on the confirmation appends exactly those entries to the
queue in listed order, each as a fresh `Pending` item carrying the entry's
url, title and duration, while Esc closes the confirmation appending
nothing; a probe outcome with exactly one entry emits a single-item event
that appends that one item directly, with the confirmation popup never
shown. -/
theorem playlist_confirmation_flow
    (s : AppState) (entries : List (String × String × Option String))
    (e : String × String × Option String)
    (herr : s.error_message = none) (hfp : s.format_popup = none)
    (hpv : s.playlist_preview = none) :
    (entries.length > 1 →
      addUrlTaskEvent (.ok entries) = some (.playlistDetected entries)
      ∧ (handle_app_event (.playlistDetected entries) s).queue = s.queue
      ∧ (∃ pv, (handle_app_event (.playlistDetected entries) s).playlist_preview
            = some pv
          ∧ pv.entries = entries.map (fun x => PlaylistEntry.mk x.1 x.2.1 x.2.2))
      ∧ ((handle_key_event { code := .enter, ctrl := false }
            (handle_app_event (.playlistDetected entries) s)).1.queue
          = s.queue
            ++ entriesToItems s.next_id
                 (entries.map (fun x => PlaylistEntry.mk x.1 x.2.1 x.2.2))
         ∧ (handle_key_event { code := .enter, ctrl := false }
              (handle_app_event (.playlistDetected entries) s)).1.playlist_preview
            = none)
      ∧ ((handle_key_event { code := .esc, ctrl := false }
            (handle_app_event (.playlistDetected entries) s)).1.queue = s.queue
         ∧ (handle_key_event { code := .esc, ctrl := false }
              (handle_app_event (.playlistDetected entries) s)).1.playlist_preview
            = none))
    ∧ (entries = [e] →
      addUrlTaskEvent (.ok entries) = some (.singleVideoDetected e.1 e.2.1 e.2.2)
      ∧ ((∀ x ∈ s.queue, x.id ≠ s.next_id) →
        (handle_app_event (.singleVideoDetected e.1 e.2.1 e.2.2) s).queue
          = s.queue
            ++ [{ DownloadItem.new s.next_id e.1 with title := some e.2.1,
                                                      duration := e.2.2,
                                                      status := .ready }]
        ∧ (handle_app_event (.singleVideoDetected e.1 e.2.1 e.2.2) s).playlist_preview
          = none)) := by
  constructor
  · intro hlen
    have hev : addUrlTaskEvent (.ok entries) = some (.playlistDetected entries) := by
      simp [addUrlTaskEvent, hlen]
    have hs1 : handle_app_event (.playlistDetected entries) s
        = { s with is_loading := false, loading_message := none,
                   playlist_preview := some
                     { entries := entries.map (fun x => PlaylistEntry.mk x.1 x.2.1 x.2.2),
                       selected_index := 0,
                       total_duration :=
                         if totalSecondsOf entries > 0
                         then some (format_duration_from_seconds (totalSecondsOf entries))
                         else none } } := by
      simp [handle_app_event, totalSecondsOf]
    refine ⟨hev, by rw [hs1], ⟨_, by rw [hs1], rfl⟩, ?_, ?_⟩
    · rw [hs1]
      simp only [handle_key_event, Bool.false_eq_true, false_and, if_false, herr,
        hfp, Option.isSome_none, Option.isSome_some, if_true,
        handle_playlist_preview_input]
      rw [foldl_pushEntry]
      simp
    · rw [hs1]
      simp only [handle_key_event, Bool.false_eq_true, false_and, if_false, herr,
        hfp, Option.isSome_none, Option.isSome_some, if_true,
        handle_playlist_preview_input]
      simp
  · intro hone
    subst hone
    refine ⟨by simp [addUrlTaskEvent], ?_⟩
    intro hfresh
    constructor
    · simp only [handle_app_event]
      rw [updateFirst_append_not _ _ (fun x hx => by simp [hfresh x hx])]
      rw [updateFirst_cons_pos (by simp [DownloadItem.new])]
    · simp [handle_app_event, hpv]

/-- The three-entry playlist of the specification's end-to-end example. -/
def c3Entries : List (String × String × Option String) :=
  [("u1", "t1", some "1:02"), ("u2", "t2", some "0:58"), ("u3", "t3", none)]

/-- Witness for C3: from the initial state, a three-entry probe outcome is
surfaced as a confirmation; Enter appends exactly the three entries as
`Pending` items in listed order, Esc appends none; a one-entry outcome
appends its single item directly with the confirmation never shown. -/
theorem playlist_confirmation_flow_witness :
    ((AppState.initial.error_message = none
       ∧ AppState.initial.format_popup = none
       ∧ AppState.initial.playlist_preview = none
       ∧ c3Entries.length > 1)
     ∧ (addUrlTaskEvent (.ok c3Entries) = some (.playlistDetected c3Entries)
        ∧ (handle_app_event (.playlistDetected c3Entries) AppState.initial).queue
            = AppState.initial.queue
        ∧ (∃ pv,
            (handle_app_event (.playlistDetected c3Entries)
                AppState.initial).playlist_preview = some pv
            ∧ pv.entries = c3Entries.map (fun x => PlaylistEntry.mk x.1 x.2.1 x.2.2))
        ∧ ((handle_key_event { code := .enter, ctrl := false }
              (handle_app_event (.playlistDetected c3Entries) AppState.initial)).1.queue
            = AppState.initial.queue
              ++ entriesToItems AppState.initial.next_id
                   (c3Entries.map (fun x => PlaylistEntry.mk x.1 x.2.1 x.2.2))
           ∧ (handle_key_event { code := .enter, ctrl := false }
                (handle_app_event (.playlistDetected c3Entries)
                  AppState.initial)).1.playlist_preview = none)
        ∧ ((handle_key_event { code := .esc, ctrl := false }
              (handle_app_event (.playlistDetected c3Entries) AppState.initial)).1.queue
            = AppState.initial.queue
           ∧ (handle_key_event { code := .esc, ctrl := false }
                (handle_app_event (.playlistDetected c3Entries)
                  AppState.initial)).1.playlist_preview = none)))
    ∧ ((handle_key_event { code := .enter, ctrl := false }
          (handle_app_event (.playlistDetected c3Entries) AppState.initial)).1.queue.map
            (fun i => (i.url, i.title, i.duration, i.status))
        = [("u1", some "t1", some "1:02", .pending),
           ("u2", some "t2", some "0:58", .pending),
           ("u3", some "t3", none, .pending)])
    ∧ (addUrlTaskEvent (.ok [(("u", "t", some "3") : String × String × Option String)])
         = some (.singleVideoDetected "u" "t" (some "3"))
       ∧ ((∀ x ∈ AppState.initial.queue, x.id ≠ AppState.initial.next_id) →
         (handle_app_event (.singleVideoDetected "u" "t" (some "3"))
             AppState.initial).queue
           = AppState.initial.queue
             ++ [{ DownloadItem.new AppState.initial.next_id "u" with
                     title := some "t", duration := some "3", status := .ready }]
         ∧ (handle_app_event (.singleVideoDetected "u" "t" (some "3"))
              AppState.initial).playlist_preview = none)) := by
  refine ⟨⟨⟨rfl, rfl, rfl, by decide⟩, ?_⟩, by decide, ?_⟩
  · exact (playlist_confirmation_flow AppState.initial c3Entries ("u", "t", some "3")
      rfl rfl rfl).1 (by decide)
  · exact (playlist_confirmation_flow AppState.initial
      [(("u", "t", some "3") : String × String × Option String)]
      ("u", "t", some "3") rfl rfl rfl).2 rfl

/-! ### Shape lemmas for the reachability invariants (C7, C10) -/

/-- The selection invariant of C10: the cursor is strictly inside the queue
whenever the queue is non-empty (and parked at 0 when it is empty). -/
def selInv (s : AppState) : Prop :=
  s.selected_index < s.queue.length
    ∨ (s.queue.length = 0 ∧ s.selected_index = 0)

theorem selInv_mono {s t : AppState} (hsel : t.selected_index = s.selected_index)
    (hlen : s.queue.length ≤ t.queue.length) (h : selInv s) : selInv t := by
  simp only [selInv] at h ⊢
  omega

/-- `handle_input_mode` never touches the queue, the selection or the task
map. -/
theorem input_mode_shape (k : Key) (s : AppState) :
    (handle_input_mode k s).1.queue = s.queue
    ∧ (handle_input_mode k s).1.selected_index = s.selected_index
    ∧ (handle_input_mode k s).1.running_tasks = s.running_tasks := by
  cases k <;> simp only [handle_input_mode]
  case enter => split_ifs <;> simp
  all_goals simp

/-- `handle_format_popup_input` preserves the queue length, the selection
and the task map. -/
theorem format_popup_shape (k : Key) (s : AppState) :
    (handle_format_popup_input k s).1.queue.length = s.queue.length
    ∧ (handle_format_popup_input k s).1.selected_index = s.selected_index
    ∧ (handle_format_popup_input k s).1.running_tasks = s.running_tasks := by
  cases hfp : s.format_popup with
  | none => simp [handle_format_popup_input, hfp]
  | some popup =>
      cases k <;> simp only [handle_format_popup_input, hfp]
      case up => split_ifs <;> simp
      case down => split_ifs <;> simp
      case enter => split <;> simp [updateFirst_length]
      case esc => simp
      case char c => split_ifs <;> simp
      all_goals simp

/-- `handle_playlist_preview_input` can only grow the queue, and preserves
the selection and the task map. -/
theorem preview_shape (k : Key) (s : AppState) :
    s.queue.length ≤ (handle_playlist_preview_input k s).queue.length
    ∧ (handle_playlist_preview_input k s).selected_index = s.selected_index
    ∧ (handle_playlist_preview_input k s).running_tasks = s.running_tasks := by
  cases hpv : s.playlist_preview with
  | none => simp [handle_playlist_preview_input, hpv]
  | some preview =>
      cases k <;> simp only [handle_playlist_preview_input, hpv]
      case up => split_ifs <;> simp
      case down => split_ifs <;> simp
      case enter => rw [foldl_pushEntry]; simp
      case esc => simp
      case char c => split_ifs <;> simp
      all_goals simp

/-- `nav_up` and `nav_down` preserve the queue and the task map and keep
the selection in bounds. -/
theorem nav_up_shape (s : AppState) :
    (nav_up s).1.queue = s.queue
    ∧ (nav_up s).1.running_tasks = s.running_tasks
    ∧ (selInv s → selInv (nav_up s).1) := by
  unfold nav_up
  split_ifs <;> simp [selInv] <;> omega

theorem nav_down_shape (s : AppState) :
    (nav_down s).1.queue = s.queue
    ∧ (nav_down s).1.running_tasks = s.running_tasks
    ∧ (selInv s → selInv (nav_down s).1) := by
  unfold nav_down
  split_ifs <;> simp [selInv] <;> omega

/-- `nav_delete` preserves the task map and the selection invariant: the
removal shrinks the queue by one and the clamp keeps the cursor in
bounds. -/
theorem nav_delete_shape (s : AppState) :
    (nav_delete s).1.running_tasks = s.running_tasks
    ∧ (selInv s → selInv (nav_delete s).1) := by
  unfold nav_delete
  split_ifs with hne
  · exact ⟨rfl, fun h => h⟩
  · cases hget : s.queue.get? s.selected_index with
    | none => simp [hget]
    | some item =>
        have hlt : s.selected_index < s.queue.length := by
          by_contra hge
          push_neg at hge
          rw [List.get?_eq_none.mpr hge] at hget
          cases hget
        have hlen : (s.queue.eraseIdx s.selected_index).length = s.queue.length - 1 :=
          List.length_eraseIdx_of_lt hlt
        simp only [hget]
        constructor
        · trivial
        · intro hinv
          simp only [selInv] at hinv ⊢
          split_ifs with hclamp <;>
            simp only [hlen, List.isEmpty_iff_length_eq_zero] at hclamp ⊢ <;>
            omega

/-- `handle_navigation_mode` never touches the task map. -/
theorem navigation_tasks (k : Key) (s : AppState) :
    (handle_navigation_mode k s).1.running_tasks = s.running_tasks := by
  cases k <;> simp only [handle_navigation_mode]
  case up => exact (nav_up_shape s).2.1
  case down => exact (nav_down_shape s).2.1
  case char c =>
    split_ifs
    · rfl
    · rfl
    · exact (nav_up_shape s).2.1
    · exact (nav_down_shape s).2.1
    · split
      · split_ifs <;> rfl
      · rfl
    · exact (nav_delete_shape s).1
    · split
      · split <;> rfl
      · rfl
    · split
      · split_ifs <;> rfl
      · rfl
    · rfl
  all_goals rfl

/-- `handle_navigation_mode` preserves the selection invariant. -/
theorem navigation_selInv (k : Key) (s : AppState) (h : selInv s) :
    selInv (handle_navigation_mode k s).1 := by
  cases k <;> simp only [handle_navigation_mode]
  case up => exact (nav_up_shape s).2.2 h
  case down => exact (nav_down_shape s).2.2 h
  case char c =>
    split_ifs
    · exact h
    · exact h
    · exact (nav_up_shape s).2.2 h
    · exact (nav_down_shape s).2.2 h
    · split
      · split_ifs <;> exact h
      · exact h
    · exact (nav_delete_shape s).2 h
    · split
      · split <;> exact h
      · exact h
    · split
      · split_ifs <;> exact h
      · exact h
    · exact h
  all_goals exact h

/-- The task-map invariant of C7: at most one handle per item identity,
i.e. the keys of the running-task map are pairwise distinct. -/
def tasksInv (s : AppState) : Prop :=
  (s.running_tasks.map Prod.fst).Nodup

theorem tasksLookup_remove_self (id : Nat) (l : List (Nat × Nat)) :
    tasksLookup id (tasksRemove id l) = none := by
  have hfind : List.find? (fun q => q.1 == id)
      (List.filter (fun q => q.1 != id) l) = none := by
    rw [List.find?_eq_none]
    intro x hx
    have hmem := List.mem_filter.mp hx
    simpa using hmem.2
  simp [tasksLookup, tasksRemove, hfind]

theorem tasksRemove_of_lookup_none {id : Nat} {l : List (Nat × Nat)}
    (h : tasksLookup id l = none) : tasksRemove id l = l := by
  simp only [tasksLookup, Option.map_eq_none'] at h
  rw [List.find?_eq_none] at h
  rw [tasksRemove, List.filter_eq_self]
  intro x hx
  simpa using h x hx

theorem tasksRemove_keys_nodup {l : List (Nat × Nat)}
    (h : (l.map Prod.fst).Nodup) (id : Nat) :
    ((tasksRemove id l).map Prod.fst).Nodup :=
  h.sublist (List.Sublist.map Prod.fst (List.filter_sublist l))

theorem tasksInsert_keys_nodup {l : List (Nat × Nat)}
    (h : (l.map Prod.fst).Nodup) (id tok : Nat) :
    ((tasksInsert id tok l).map Prod.fst).Nodup := by
  simp only [tasksInsert, List.map_cons, List.nodup_cons]
  refine ⟨?_, tasksRemove_keys_nodup h id⟩
  intro hmem
  rcases List.mem_map.mp hmem with ⟨x, hx, hfst⟩
  have := (List.mem_filter.mp hx).2
  simp [hfst] at this

/-- Every application event preserves the task-map invariant (the handlers
only ever remove a binding or leave the map alone). -/
theorem app_event_tasksInv (e : AppEvent) (s : AppState) (h : tasksInv s) :
    tasksInv (handle_app_event e s) := by
  cases e <;> simp only [handle_app_event]
  case downloadCompleted id => exact tasksRemove_keys_nodup h id
  case downloadFailed id err => exact tasksRemove_keys_nodup h id
  case formatsFetched id formats title duration => split_ifs <;> exact h
  case urlValidated url is_valid error =>
    cases error <;> exact h
  all_goals exact h

/-- Every download action preserves the task-map invariant (`StartDownload`
replaces via `tasksInsert`, `Cancel`/`Remove` delete via `tasksRemove`). -/
theorem action_tasksInv (a : DownloadAction) (s : AppState) (h : tasksInv s) :
    tasksInv (handle_download_action a s).1 := by
  cases a <;> simp only [handle_download_action]
  case startDownload id =>
    cases hfind : s.queue.find? (fun i => i.id == id) with
    | none => simp only [hfind]; exact h
    | some item =>
        cases hfmt : item.format with
        | none => simp only [hfind, hfmt]; exact h
        | some format =>
            simp only [hfind, hfmt]
            exact tasksInsert_keys_nodup h id s.next_task
  case cancelDownload id =>
    cases hlook : tasksLookup id s.running_tasks with
    | none => simp only [hlook]; exact h
    | some tok => simp only [hlook]; exact tasksRemove_keys_nodup h id
  case removeItem id =>
    cases hlook : tasksLookup id s.running_tasks with
    | none => simp only [hlook]; exact h
    | some tok => simp only [hlook]; exact tasksRemove_keys_nodup h id
  case fetchFormats id =>
    cases hfind : s.queue.find? (fun i => i.id == id) with
    | none => simp only [hfind]; exact h
    | some item => simp only [hfind]; exact h
  all_goals exact h

/-- Key presses never touch the task map. -/
theorem key_event_tasks (k : KeyEvent) (s : AppState) :
    (handle_key_event k s).1.running_tasks = s.running_tasks := by
  unfold handle_key_event
  split_ifs
  · rfl
  · rfl
  · exact (format_popup_shape k.code s).2.2
  · exact (preview_shape k.code s).2.2
  · exact (input_mode_shape k.code s).2.2
  · exact navigation_tasks k.code s

/-- Every application event preserves the selection invariant (events never
shrink the queue and never move the cursor). -/
theorem app_event_selInv (e : AppEvent) (s : AppState) (h : selInv s) :
    selInv (handle_app_event e s) := by
  cases e <;> simp only [handle_app_event]
  case progressUpdate id progress =>
    exact @selInv_mono s _ rfl (by simp [updateFirst_length]) h
  case downloadCompleted id =>
    exact @selInv_mono s _ rfl (by simp [updateFirst_length]) h
  case downloadFailed id err =>
    exact @selInv_mono s _ rfl (by simp [updateFirst_length]) h
  case formatsFetched id formats title duration =>
    split_ifs with hh
    · exact @selInv_mono s _ rfl (by simp [updateFirst_length]) h
    · exact h
  case formatsFetchFailed id err =>
    exact @selInv_mono s _ rfl (by simp [updateFirst_length]) h
  case urlValidated url is_valid error =>
    cases error with
    | none => exact h
    | some e => exact @selInv_mono s _ rfl le_rfl h
  case playlistDetected entries => exact @selInv_mono s _ rfl le_rfl h
  case singleVideoDetected url title duration =>
    exact @selInv_mono s _ rfl (by simp [updateFirst_length]) h
  case playlistFetchFailed err => exact @selInv_mono s _ rfl le_rfl h
  case quit => exact @selInv_mono s _ rfl le_rfl h

/-- Every download action preserves the selection invariant (actions only
rewrite item fields in place). -/
theorem action_selInv (a : DownloadAction) (s : AppState) (h : selInv s) :
    selInv (handle_download_action a s).1 := by
  cases a <;> simp only [handle_download_action]
  case startDownload id =>
    cases hfind : s.queue.find? (fun i => i.id == id) with
    | none => simp only [hfind]; exact h
    | some item =>
        cases hfmt : item.format with
        | none => simp only [hfind, hfmt]; exact h
        | some format =>
            simp only [hfind, hfmt]
            exact @selInv_mono s _ rfl (by simp [updateFirst_length]) h
  case cancelDownload id =>
    cases hlook : tasksLookup id s.running_tasks with
    | none =>
        simp only [hlook]
        exact @selInv_mono s _ rfl (by simp [updateFirst_length]) h
    | some tok =>
        simp only [hlook]
        exact @selInv_mono s _ rfl (by simp [updateFirst_length]) h
  case removeItem id =>
    cases hlook : tasksLookup id s.running_tasks with
    | none => simp only [hlook]; exact h
    | some tok => simp only [hlook]; exact @selInv_mono s _ rfl le_rfl h
  case fetchFormats id =>
    cases hfind : s.queue.find? (fun i => i.id == id) with
    | none => simp only [hfind]; exact h
    | some item =>
        simp only [hfind]
        exact @selInv_mono s _ rfl (by simp [updateFirst_length]) h
  all_goals exact h

/-- Key presses preserve the selection invariant. -/
theorem key_event_selInv (k : KeyEvent) (s : AppState) (h : selInv s) :
    selInv (handle_key_event k s).1 := by
  unfold handle_key_event
  split_ifs
  · exact @selInv_mono s _ rfl le_rfl h
  · exact @selInv_mono s _ rfl le_rfl h
  · exact selInv_mono (format_popup_shape k.code s).2.1
      (le_of_eq (format_popup_shape k.code s).1.symm) h
  · exact selInv_mono (preview_shape k.code s).2.1 (preview_shape k.code s).1 h
  · exact selInv_mono (input_mode_shape k.code s).2.1
      (le_of_eq (congrArg List.length (input_mode_shape k.code s).1).symm) h
  · exact navigation_selInv k.code s h

/-- One interleaving step preserves both reachability invariants. -/
theorem step_invariants (st : Step) (s : AppState) :
    (selInv s → selInv (applyStep st s))
    ∧ (tasksInv s → tasksInv (applyStep st s)) := by
  cases st with
  | key k =>
      exact ⟨key_event_selInv k s, fun h => by
        simpa [tasksInv, applyStep, key_event_tasks k s] using h⟩
  | app e => exact ⟨app_event_selInv e s, app_event_tasksInv e s⟩
  | act a => exact ⟨action_selInv a s, action_tasksInv a s⟩

theorem applySteps_invariants (l : List Step) :
    ∀ s : AppState, selInv s → tasksInv s →
      selInv (applySteps l s) ∧ tasksInv (applySteps l s) := by
  induction l with
  | nil => intro s h1 h2; exact ⟨h1, h2⟩
  | cons st rest ih =>
      intro s h1 h2
      have hstep := step_invariants st s
      exact ih (applyStep st s) (hstep.1 h1) (hstep.2 h2)

/-! ### Claim C7 -/

/-- C7: along every sequence of steps (user actions, key presses and
events) from the initial state the running-task map holds at most one
handle per item identity (`tasksInv`: its keys are pairwise distinct);
`CancelDownload` and `RemoveItem` leave the map untouched when no handle is
registered for the identity (idempotent), and when one is registered they
remove it — leaving no binding for that identity — and abort it. -/
theorem task_registry_at_most_one_handle :
    (∀ l : List Step, tasksInv (applySteps l AppState.initial))
    ∧ (∀ (s : AppState) (id : Nat), tasksLookup id s.running_tasks = none →
        (handle_download_action (.cancelDownload id) s).1.running_tasks
          = s.running_tasks
        ∧ (handle_download_action (.removeItem id) s).1.running_tasks
          = s.running_tasks)
    ∧ (∀ (s : AppState) (id tok : Nat), tasksLookup id s.running_tasks = some tok →
        (handle_download_action (.cancelDownload id) s).1.running_tasks
          = tasksRemove id s.running_tasks
        ∧ tasksLookup id
            (handle_download_action (.cancelDownload id) s).1.running_tasks = none
        ∧ tok ∈ (handle_download_action (.cancelDownload id) s).1.aborted
        ∧ (handle_download_action (.removeItem id) s).1.running_tasks
          = tasksRemove id s.running_tasks
        ∧ tok ∈ (handle_download_action (.removeItem id) s).1.aborted) := by
  refine ⟨?_, ?_, ?_⟩
  · intro l
    exact (applySteps_invariants l AppState.initial
      (Or.inr (by simp [AppState.initial]))
      (by simp [tasksInv, AppState.initial])).2
  · intro s id h
    constructor
    · simp only [handle_download_action, h]
    · simp only [handle_download_action, h]
  · intro s id tok h
    refine ⟨?_, ?_, ?_, ?_, ?_⟩ <;> simp only [handle_download_action, h]
    · exact tasksLookup_remove_self id s.running_tasks
    · simp
    · simp

/-- Witness for C7: a start–cancel sequence from the initial state keeps
the key list duplicate-free; cancelling identity 0 with no registered
handle leaves the map unchanged; cancelling it in a state where handle
token 7 is registered removes the binding and aborts token 7. -/
theorem task_registry_at_most_one_handle_witness :
    tasksInv (applySteps [.act (.startDownload 0), .act (.cancelDownload 0)]
      AppState.initial)
    ∧ (tasksLookup 0 AppState.initial.running_tasks = none
       ∧ (handle_download_action (.cancelDownload 0) AppState.initial).1.running_tasks
           = AppState.initial.running_tasks
       ∧ (handle_download_action (.removeItem 0) AppState.initial).1.running_tasks
           = AppState.initial.running_tasks)
    ∧ (tasksLookup 0 c1State.running_tasks = some 7
       ∧ ((handle_download_action (.cancelDownload 0) c1State).1.running_tasks
            = tasksRemove 0 c1State.running_tasks
          ∧ tasksLookup 0
              (handle_download_action (.cancelDownload 0) c1State).1.running_tasks
              = none
          ∧ 7 ∈ (handle_download_action (.cancelDownload 0) c1State).1.aborted
          ∧ (handle_download_action (.removeItem 0) c1State).1.running_tasks
            = tasksRemove 0 c1State.running_tasks
          ∧ 7 ∈ (handle_download_action (.removeItem 0) c1State).1.aborted)) := by
  refine ⟨task_registry_at_most_one_handle.1 _, ⟨by decide, ?_⟩, by decide, ?_⟩
  · have h := task_registry_at_most_one_handle.2.1 AppState.initial 0 (by decide)
    exact h
  · exact task_registry_at_most_one_handle.2.2 c1State 0 7 (by decide)

/-! ### Claim C10 -/

/-- C10: in every state reachable from the initial state, whenever the
queue is non-empty the cursor `selected_index` is strictly below the queue
length (navigation only moves inside the bounds and deletion clamps the
cursor), so the direct index performed by the delete handler is always in
bounds — the lookup it performs is always `some`, never the out-of-bounds
(panicking) case. -/
theorem selected_index_always_in_bounds (l : List Step) :
    (applySteps l AppState.initial).queue ≠ [] →
      (applySteps l AppState.initial).selected_index
        < (applySteps l AppState.initial).queue.length
      ∧ ((applySteps l AppState.initial).queue.get?
          (applySteps l AppState.initial).selected_index).isSome = true := by
  intro hne
  have hinv := (applySteps_invariants l AppState.initial
    (Or.inr (by simp [AppState.initial]))
    (by simp [tasksInv, AppState.initial])).1
  have hlen : (applySteps l AppState.initial).queue.length ≠ 0 := by
    simpa [List.length_eq_zero] using hne
  have hlt : (applySteps l AppState.initial).selected_index
      < (applySteps l AppState.initial).queue.length := by
    rcases hinv with h | h
    · exact h
    · exact absurd h.1 hlen
  refine ⟨hlt, ?_⟩
  cases hget : (applySteps l AppState.initial).queue.get?
      (applySteps l AppState.initial).selected_index with
  | none => exact absurd (List.get?_eq_none.mp hget) (by omega)
  | some item => rfl

/-- Witness for C10: after adding one item the queue is non-empty, the
cursor 0 is inside the one-element queue and the delete handler's lookup
succeeds. -/
theorem selected_index_always_in_bounds_witness :
    ((applySteps [.app (.singleVideoDetected "u" "t" none)] AppState.initial).queue ≠ []
     ∧ (applySteps [.app (.singleVideoDetected "u" "t" none)]
          AppState.initial).selected_index
         < (applySteps [.app (.singleVideoDetected "u" "t" none)]
             AppState.initial).queue.length
     ∧ ((applySteps [.app (.singleVideoDetected "u" "t" none)] AppState.initial).queue.get?
         (applySteps [.app (.singleVideoDetected "u" "t" none)]
           AppState.initial).selected_index).isSome = true) := by
  refine ⟨by decide, selected_index_always_in_bounds _ (by decide)⟩

end Gorlock
